import Mathlib

/-!
Shallow embedding of `src/checkov/cloudformation/runner.py` (the
CloudFormation `Runner` class): data model, the `run` orchestration, the
graph-checks report and the report merge, together with proofs about them.

External collaborators that live outside `src/` (the context parser, the
resource-check registry, the graph manager, `cfn_utils`, `merge_reports`,
the base-runner defaults) are either passed in explicitly as collaborator
records, or — where a claim depends on their behaviour — modelled from the
spec, with a doc comment saying so.
-/

set_option synthInstance.maxSize 512

deriving instance DecidableEq for Except

namespace Checkov

/-- Python `dict.get` / `dict[k]` over an insertion-ordered association list
(first matching key wins, as in a Python dict there is at most one). -/
def pyGet {α : Type} : List (String × α) → String → Option α
  | [], _ => none
  | (k, v) :: rest, key => if k = key then some v else pyGet rest key

/-- Splitting a character list at every occurrence of the separator `c`,
keeping empty segments — the semantics of Python's `str.split(sep)` for a
one-character separator, over the underlying characters. -/
def splitOnChar (c : Char) : List Char → List (List Char)
  | [] => [[]]
  | x :: xs =>
    if x = c then [] :: splitOnChar c xs
    else
      match splitOnChar c xs with
      | [] => [[x]]
      | h :: t => (x :: h) :: t

/-- Python `s.split(sep)` for a single-character separator `sep`. -/
def pySplit (sep : Char) (s : String) : List String :=
  (splitOnChar sep s.toList).map (fun l => String.mk l)

/-- Python `s.lower()` (ASCII case folding, which is all the runner needs
for comparing the environment flag with `"true"`). -/
def pyLower (s : String) : String :=
  String.mk (s.toList.map Char.toLower)

/-- The result kind a check evaluation can produce. -/
inductive CheckStatus
  | passed
  | failed
  | skipped
deriving DecidableEq, Repr

/-- A check result as the registries hand it to the runner (Python passes a
dict holding at least the result kind and, for skips, the suppress comment). -/
structure CheckResult where
  result : CheckStatus
  suppress_comment : Option String
deriving DecidableEq, Repr

/-- A resource body. The runner treats resources as opaque values handed to
the collaborators; a string-keyed attribute list is enough structure for
concrete witnesses. -/
abbrev Resource := List (String × String)

/-- The raw (pre-parse) text of one file: line number with literal line. -/
abbrev RawFile := List (Nat × String)

/-- A parsed template: either a dict of sections (`Resources` among them,
each section mapping resource names to bodies) or a non-dict value — the
runner guards on `isinstance(definition, dict)`. -/
inductive Definition
  | dict (sections : List (String × List (String × Resource)))
  | nonDict
deriving DecidableEq, Repr

abbrev Definitions := List (String × Definition)
abbrev DefinitionsRaw := List (String × RawFile)

/-- Modelled from the spec: `CloudformationTemplateSections.RESOURCES`
(from `graph_builder.graph_components.block_types`, not under `src/`) is the
"Resources" template section name (§3: "at minimum a `Resources` section"). -/
def RESOURCES : String := "Resources"

/-- One entry of the built ResourceContext: `{start_line, end_line,
code_lines}` for a resource (§3). -/
structure ResourceContextEntry where
  start_line : Nat
  end_line : Nat
  code_lines : List (Nat × String)
deriving DecidableEq, Repr

/-- The ResourceContext map: absolute file path → section name → resource
name → entry, mirroring `self.context[abs_path][RESOURCES][name]`. -/
abbrev ContextMap := List (String × List (String × List (String × ResourceContextEntry)))

/-- A breadcrumb trail attached to graph-derived findings (§3: an ordered
sequence of vertices/edges explaining why a graph check fired). -/
structure Breadcrumb where
  path : List String
deriving DecidableEq, Repr

/-- `self.breadcrumbs`: file path → resource id → breadcrumb. -/
abbrev BreadcrumbMap := List (String × List (String × Breadcrumb))

/-- The terminal Finding entity (`Record` in the source). -/
structure Record where
  check_id : String
  bc_check_id : Option String
  check_name : String
  check_result : CheckResult
  code_block : List (Nat × String)
  file_path : String
  file_line_range : List Nat
  resource : String
  evaluations : List (String × String)
  check_class : String
  file_abs_path : String
  entity_tags : List (String × String)
deriving DecidableEq, Repr

/-- A report entry: a plain `Record`, or a `GraphRecord` wrapping a record
together with its breadcrumb. -/
inductive ReportRecord
  | plain (r : Record)
  | graph (r : Record) (b : Breadcrumb)
deriving DecidableEq, Repr

/-- A run's report: the check type plus the findings in insertion order. -/
structure Report where
  check_type : String
  records : List ReportRecord
deriving DecidableEq, Repr

/-- `Runner.check_type`. -/
def runnerCheckType : String := "cloudformation"

/-- The identity of a finding used by the merge rule (§4.7):
`(check_id, file_path, resource_id)`. -/
def recId : ReportRecord → String × String × String
  | .plain r => (r.check_id, r.file_path, r.resource)
  | .graph r _ => (r.check_id, r.file_path, r.resource)

/-- Modelled from the spec: `merge_reports` (from
`checkov.common.output.report`, not under `src/`). §4.7 merge rule: a
finding is identified by `(check_id, file_path, resource_id)`; when both
paths produce a finding for the same identity the graph-path finding wins
and replaces the resource-path finding; all other findings from both paths
are kept. -/
def merge_reports (base gr : Report) : Report :=
  { check_type := base.check_type,
    records :=
      base.records.filter
        (fun r => !(gr.records.any (fun gx => decide (recId gx = recId r))))
      ++ gr.records }

/-- A single resource-scoped check: identity, applicability predicate and an
evaluator (§3 CheckDefinition, §9 typed `applies` predicate). `evaluate`
returns whether the resource passes. -/
structure CfnCheck where
  id : String
  bc_id : Option String
  name : String
  check_class : String
  applies : Resource → Bool
  evaluate : Resource → Bool

/-- The resource-scoped check registry (`cfn_registry`). -/
structure CfnRegistry where
  checks : List CfnCheck

/-- The runner filter, reduced to the one capability the runner path needs:
deciding whether a check id should run. -/
abbrev RunnerFilter := String → Bool

/-- Modelled from the spec: `cfn_registry.scan` (not under `src/`). §4.4:
for one resource, run every registered resource-scoped check whose
applicability predicate matches (and that the runner filter admits),
marking a check SKIPPED — not evaluated — if its id appears in the skip
mapping for that resource, otherwise evaluating it to PASS/FAIL. -/
def CfnRegistry.scan (reg : CfnRegistry) (cf_file : String)
    (entity : String × Resource) (skipped : List (String × String))
    (rf : RunnerFilter) : List (CfnCheck × CheckResult) :=
  let _ := cf_file
  reg.checks.filterMap (fun c =>
    if rf c.id && c.applies entity.2 then
      match pyGet skipped c.id with
      | some just => some (c, { result := .skipped, suppress_comment := some just })
      | none =>
        some (c, { result := if c.evaluate entity.2 then .passed else .failed,
                   suppress_comment := none })
    else none)

/-- The suppression-marker prefix scanned for in a resource's code lines. -/
def skipMarkerChars : List Char := "checkov:skip=".toList

/-- Finds the first occurrence of `pat` in a character list and returns the
characters after it. -/
def findAfterMarker (pat : List Char) : List Char → Option (List Char)
  | [] => none
  | c :: cs =>
    if pat.isPrefixOf (c :: cs) then some ((c :: cs).drop pat.length)
    else findAfterMarker pat cs

/-- Modelled from the spec: the suppression-marker parse of one source line
(`ContextParser.collect_skip_comments` is not under `src/`). §4.3: a marker
is a rule id plus optional free-text justification; here
`checkov:skip=RULE_ID` optionally followed by `:justification`. -/
def findSkipMarker (line : String) : Option (String × String) :=
  match findAfterMarker skipMarkerChars line.toList with
  | none => none
  | some rest =>
    let idChars := rest.takeWhile (fun c => c ≠ ':')
    let after := rest.drop idChars.length
    let just := match after with
      | ':' :: js => String.mk js
      | _ => ""
    some (String.mk idChars, just)

/-- Modelled from the spec: `ContextParser.collect_skip_comments` (not under
`src/`). §4.3: scans a resource's code lines for suppression markers and
yields the mapping rule-id → justification; a resource with no markers
yields an empty mapping. -/
def collect_skip_comments (code_lines : List (Nat × String)) : List (String × String) :=
  code_lines.filterMap (fun l => findSkipMarker l.2)

/-- The two extraction operations of a constructed `ContextParser`
(`extract_cf_resource_id` and `extract_cf_resource_code_lines`); the class
itself is not under `src/`, so the runner receives them as a collaborator.
`extract_cf_resource_code_lines` returns the `(lines_range, code_lines)`
pair; a missing range is `none` and missing code lines are `[]`, matching
the Python truthiness test `if entity_lines_range and entity_code_lines`. -/
structure ContextParserModel where
  extract_cf_resource_id : Resource → String → Option String
  extract_cf_resource_code_lines : Resource → Option (Nat × Nat) × List (Nat × String)

/-- A resource vertex of the local graph (opaque to the runner). -/
structure LocalGraph where
  vertices : List Resource

/-- A graph verdict's entity attributes, as read back via
`CustomAttributes.FILE_PATH`, `BLOCK_NAME`, `ID` and `"Tags"`. -/
structure GraphEntity where
  file_path : String
  block_name : String
  id : String
  tags : Option (List (String × String))
deriving Repr

/-- One verdict of a graph check: the originating entity plus its result. -/
structure GraphCheckRes where
  entity : GraphEntity
  result : CheckResult
deriving Repr

/-- A graph-scoped check's identity. -/
structure GraphCheck where
  id : String
  name : String
  check_class : String
deriving Repr

/-- The non-graph collaborators `runner.py` imports from outside `src/`:
`create_definitions`, the global `cfn_registry` and its external-check
loader, `build_definitions_context`, `create_file_abs_path`, the
`ContextParser` constructor, `cfn_utils.get_resource_tags` and
`cfn_utils.parse_entity_tags`. -/
structure BaseCollab where
  create_definitions : String → Option (List String) → RunnerFilter → Definitions × DefinitionsRaw
  registry : CfnRegistry
  load_external_checks : String → CfnRegistry → CfnRegistry
  build_definitions_context : Definitions → DefinitionsRaw → String → ContextMap
  create_file_abs_path : String → String → String
  mkContextParser : String → Definition → RawFile → ContextParserModel
  get_resource_tags : String × Resource → List (String × String)
  parse_entity_tags : List (String × String) → List (String × String)

/-- The graph-path collaborators: the graph manager's builder, the
vertex-to-definitions conversion and `run_graph_checks_results`
(`save_graph` is a pure sink per §6 and has no modelled effect). -/
structure GraphCollab where
  build_graph_from_definitions : Definitions → LocalGraph
  convert_graph_vertices_to_definitions : List Resource → String → Definitions × BreadcrumbMap
  run_graph_checks_results : RunnerFilter → List (GraphCheck × List GraphCheckRes)

/-- The mutable fields of the runner consulted by `run`. Modelled from the
spec: `BaseRunner` (not under `src/`) initializes `context`, `definitions`
and `breadcrumbs` to `None`; `Runner.__init__` sets `definitions_raw = {}`. -/
structure RunnerState where
  context : Option ContextMap
  definitions : Option Definitions
  definitions_raw : DefinitionsRaw
  breadcrumbs : Option BreadcrumbMap
deriving DecidableEq, Repr

/-- A fresh runner, as produced by `Runner.__init__`. -/
def initState : RunnerState :=
  { context := none, definitions := none, definitions_raw := [], breadcrumbs := none }

/-- The per-call inputs of `Runner.run`, including the ambient value of the
`CHECKOV_CLOUDFORMATION_GRAPH` environment variable (`env_graph = none`
models an unset variable). -/
structure RunInput where
  root_folder : String
  external_checks_dir : List String
  files : Option (List String)
  env_graph : Option String

/-- Line 50/85: `os.getenv("CHECKOV_CLOUDFORMATION_GRAPH", "false").lower()
== "true"`. -/
def graphEnabled (env : Option String) : Bool :=
  pyLower (env.getD "false") == "true"

/-- Lines 62–82, the body of the per-resource loop: bail out when the
resource id is missing or falsy, or when the line range is missing, or when
the code lines are empty (`if entity_lines_range and entity_code_lines`);
otherwise collect skip comments, scan the registry and produce one plain
record per check result. -/
def processResource (reg : CfnRegistry) (parser : ContextParserModel)
    (rf : RunnerFilter) (get_tags : String × Resource → List (String × String))
    (cf_file file_abs_path : String) (resource_name : String) (resource : Resource) :
    List ReportRecord :=
  match parser.extract_cf_resource_id resource resource_name with
  | none => []
  | some resource_id =>
    if resource_id = "" then []
    else
      match parser.extract_cf_resource_code_lines resource with
      | (none, _) => []
      | (some _, []) => []
      | (some entity_lines_range, l0 :: ls) =>
        let entity_code_lines := l0 :: ls
        let variable_evaluations : List (String × String) := []
        let skipped_checks := collect_skip_comments entity_code_lines
        let entity := (resource_name, resource)
        let results := reg.scan cf_file entity skipped_checks rf
        let tags := get_tags entity
        results.map (fun p =>
          ReportRecord.plain {
            check_id := p.1.id, bc_check_id := p.1.bc_id, check_name := p.1.name,
            check_result := p.2, code_block := entity_code_lines,
            file_path := cf_file, file_line_range := [entity_lines_range.1, entity_lines_range.2],
            resource := resource_id, evaluations := variable_evaluations,
            check_class := p.1.check_class, file_abs_path := file_abs_path,
            entity_tags := tags })

/-- The failure cases of context extraction for one resource (claim C4):
no extractable — or falsy — resource id, no line range, or no code lines. -/
def extractionFails (p : ContextParserModel) (n : String) (r : Resource) : Prop :=
  p.extract_cf_resource_id r n = none
  ∨ p.extract_cf_resource_id r n = some ""
  ∨ (p.extract_cf_resource_code_lines r).1 = none
  ∨ (p.extract_cf_resource_code_lines r).2 = []

/-- Lines 56–82, the body of the per-file loop: compute the absolute path,
and when the definition is a dict with a `Resources` section, construct the
context parser (`self.definitions_raw[cf_file]` raises `KeyError` when the
raw map has no entry for the file) and process every declared resource. -/
def processFile (base : BaseCollab) (reg : CfnRegistry) (rf : RunnerFilter)
    (root cf_file : String) (defn : Definition) (raw : DefinitionsRaw) :
    Except String (List ReportRecord) :=
  let file_abs_path := base.create_file_abs_path root cf_file
  match defn with
  | .nonDict => .ok []
  | .dict sections =>
    match pyGet sections RESOURCES with
    | none => .ok []
    | some resources =>
      match pyGet raw cf_file with
      | none => .error "KeyError"
      | some rawFile =>
        let parser := base.mkContextParser cf_file (.dict sections) rawFile
        .ok (resources.flatMap (fun nr =>
          processResource reg parser rf base.get_resource_tags cf_file file_abs_path nr.1 nr.2))

/-- The whole resource-scoped scan loop over `self.definitions`, appending
each file's records to the report in order; the first raised error aborts
the run, as an uncaught Python exception would. -/
def scanLoop (base : BaseCollab) (reg : CfnRegistry) (rf : RunnerFilter)
    (root : String) (defs : Definitions) (raw : DefinitionsRaw) :
    Except String (List ReportRecord) :=
  defs.foldlM (fun acc fd => do
    let rs ← processFile base reg rf root fd.1 fd.2 raw
    pure (acc ++ rs)) []

/-- Line 40: `self.context is None or self.definitions is None or
self.breadcrumbs is None`. -/
def guardTriggered (s : RunnerState) : Bool :=
  s.context.isNone || s.definitions.isNone || s.breadcrumbs.isNone

/-- The registry in effect for this call: the global `cfn_registry`, with
the external check directories loaded into it when the reload guard fires
(lines 43–45). -/
def effectiveRegistry (base : BaseCollab) (s : RunnerState) (inp : RunInput) : CfnRegistry :=
  if guardTriggered s then
    if inp.external_checks_dir.isEmpty then base.registry
    else inp.external_checks_dir.foldl (fun r d => base.load_external_checks d r) base.registry
  else base.registry

/-- Lines 40–42: when the guard fires, reload `self.definitions` and
`self.definitions_raw` from `create_definitions`. -/
def afterGuard (base : BaseCollab) (s : RunnerState) (inp : RunInput)
    (rf : RunnerFilter) : RunnerState :=
  if guardTriggered s then
    { s with
      definitions := some (base.create_definitions inp.root_folder inp.files rf).1,
      definitions_raw := (base.create_definitions inp.root_folder inp.files rf).2 }
  else s

/-- Line 47: `self.context = build_definitions_context(self.definitions,
self.definitions_raw, root_folder)` — unconditional, after the guard. -/
def afterContext (base : BaseCollab) (s : RunnerState) (inp : RunInput)
    (rf : RunnerFilter) : RunnerState :=
  let s1 := afterGuard base s inp rf
  { s1 with
    context := some (base.build_definitions_context (s1.definitions.getD [])
      s1.definitions_raw inp.root_folder) }

/-- Lines 50–54: when the environment flag is on, build the local graph and
replace `self.definitions` and `self.breadcrumbs` with the conversion of its
vertices; otherwise leave the state untouched. -/
def applyGraphBranch (g : GraphCollab) (s : RunnerState) (inp : RunInput) : RunnerState :=
  if graphEnabled inp.env_graph then
    let local_graph := g.build_graph_from_definitions (s.definitions.getD [])
    { s with
      definitions := some (g.convert_graph_vertices_to_definitions local_graph.vertices
        inp.root_folder).1,
      breadcrumbs := some (g.convert_graph_vertices_to_definitions local_graph.vertices
        inp.root_folder).2 }
  else s

/-- Lines 113–115: `self.breadcrumbs.get(record.file_path, {}).get(record.resource)`,
guarded by the truthiness of `self.breadcrumbs` itself. -/
def bcLookup (bc : Option BreadcrumbMap) (fp rid : String) : Option Breadcrumb :=
  match bc with
  | none => none
  | some m =>
    if m.isEmpty then none
    else (pyGet m fp).bind (fun m2 => pyGet m2 rid)

/-- Lines 97–118, the body of the per-verdict loop of
`get_graph_checks_report`: resolve the entity name as
`BLOCK_NAME.split(".")[1]` (an `IndexError` when the block name has no
dot), look the resource up in `self.context` (a `KeyError` when absent, a
`TypeError` when the context was never built), build the record and upgrade
it to a graph record when a breadcrumb resolves. -/
def processGraphResult (base : BaseCollab) (s : RunnerState) (root : String)
    (check : GraphCheck) (cr : GraphCheckRes) : Except String ReportRecord :=
  let entity := cr.entity
  let entity_file_abs_path := base.create_file_abs_path root entity.file_path
  match (pySplit '.' entity.block_name)[1]? with
  | none => .error "IndexError: list index out of range"
  | some entity_name =>
    match s.context with
    | none => .error "TypeError: NoneType object is not subscriptable"
    | some ctx =>
      match ((pyGet ctx entity_file_abs_path).bind (fun m => pyGet m RESOURCES)).bind
          (fun m => pyGet m entity_name) with
      | none => .error "KeyError"
      | some entity_context =>
        let record : Record := {
          check_id := check.id, bc_check_id := none, check_name := check.name,
          check_result := cr.result, code_block := entity_context.code_lines,
          file_path := entity.file_path,
          file_line_range := [entity_context.start_line, entity_context.end_line],
          resource := entity.id, evaluations := [],
          check_class := check.check_class,
          file_abs_path := entity_file_abs_path,
          entity_tags := match entity.tags with
            | none => []
            | some [] => []
            | some (t :: ts) => base.parse_entity_tags (t :: ts) }
        match bcLookup s.breadcrumbs entity.file_path entity.id with
        | some b => .ok (.graph record b)
        | none => .ok (.plain record)

/-- Lines 91–119: `get_graph_checks_report`, collecting one record per
graph verdict in order. -/
def getGraphChecksReport (base : BaseCollab) (g : GraphCollab) (s : RunnerState)
    (root : String) (rf : RunnerFilter) : Except String Report := do
  let checks_results := g.run_graph_checks_results rf
  let recs ← checks_results.foldlM (fun acc p =>
    p.2.foldlM (fun acc2 cr => do
      let r ← processGraphResult base s root p.1 cr
      pure (acc2 ++ [r])) acc) ([] : List ReportRecord)
  pure { check_type := runnerCheckType, records := recs }

/-- Lines 50–89 after the context build: the graph substitution, the
resource-scoped scan loop, and — when the flag is on — the graph report and
the merge. -/
def runCore (base : BaseCollab) (g : GraphCollab) (s : RunnerState)
    (reg : CfnRegistry) (inp : RunInput) (rf : RunnerFilter) :
    Except String (RunnerState × Report) :=
  let s2 := applyGraphBranch g s inp
  match scanLoop base reg rf inp.root_folder (s2.definitions.getD []) s2.definitions_raw with
  | .error e => .error e
  | .ok recs =>
    if graphEnabled inp.env_graph then
      match getGraphChecksReport base g s2 inp.root_folder rf with
      | .error e => .error e
      | .ok graph_report =>
        .ok (s2, merge_reports { check_type := runnerCheckType, records := recs } graph_report)
    else .ok (s2, { check_type := runnerCheckType, records := recs })

/-- Lines 37–89: `Runner.run`, returning the updated runner state together
with the report (or the uncaught exception that aborted the call). -/
def Runner.run (base : BaseCollab) (g : GraphCollab) (s : RunnerState)
    (inp : RunInput) (rf : RunnerFilter) : Except String (RunnerState × Report) :=
  runCore base g (afterContext base s inp rf) (effectiveRegistry base s inp) inp rf

/-- The findings of a call to `run`, forgetting the state. -/
def runFindings (base : BaseCollab) (g : GraphCollab) (s : RunnerState)
    (inp : RunInput) (rf : RunnerFilter) : Except String (List ReportRecord) :=
  (Runner.run base g s inp rf).map (fun p => p.2.records)

/-! Concrete fixtures: a one-file, one-resource input with one registered
check, used by witnesses and counterexamples. -/

/-- A concrete resource body. -/
def exResource : Resource := [("Type", "AWS::S3::Bucket")]

/-- The concrete raw source of the fixture file. -/
def exRaw : RawFile :=
  [(1, "Resources:"), (2, "  MyBucket:"), (3, "    Type: AWS::S3::Bucket")]

/-- A context parser that resolves the fixture resource. -/
def exParser : ContextParserModel :=
  { extract_cf_resource_id := fun _ n => some ("AWS::S3::Bucket." ++ n),
    extract_cf_resource_code_lines := fun _ =>
      (some (2, 3), [(2, "  MyBucket:"), (3, "    Type: AWS::S3::Bucket")]) }

/-- A single registered resource-scoped check that passes everything. -/
def exCheck : CfnCheck :=
  { id := "CKV_1", bc_id := none, name := "check1", check_class := "mod",
    applies := fun _ => true, evaluate := fun _ => true }

/-- The fixture registry. -/
def exRegistry : CfnRegistry := ⟨[exCheck]⟩

/-- The fixture loader output: one parsed file. -/
def exDefs : Definitions :=
  [("f1", .dict [("Resources", [("MyBucket", exResource)])])]

/-- The fixture raw-source map. -/
def exRawMap : DefinitionsRaw := [("f1", exRaw)]

/-- The context the fixture context builder produces. -/
def exBuiltContext : ContextMap :=
  [("/abs/f1", [("Resources", [("MyBucket", ⟨2, 3, [(2, "  MyBucket:"), (3, "    Type: AWS::S3::Bucket")]⟩)])])]

/-- The fixture non-graph collaborators. -/
def exBase : BaseCollab :=
  { create_definitions := fun _ _ _ => (exDefs, exRawMap),
    registry := exRegistry,
    load_external_checks := fun _ r => r,
    build_definitions_context := fun _ _ _ => exBuiltContext,
    create_file_abs_path := fun _ f => "/abs/" ++ f,
    mkContextParser := fun _ _ _ => exParser,
    get_resource_tags := fun _ => [],
    parse_entity_tags := fun t => t }

/-- The fixture collaborators with a context builder that builds an empty
ResourceContext. -/
def exBaseEmptyCtx : BaseCollab :=
  { exBase with build_definitions_context := fun _ _ _ => [] }

/-- A context parser that fails to extract anything. -/
def exParserNoId : ContextParserModel :=
  { extract_cf_resource_id := fun _ _ => none,
    extract_cf_resource_code_lines := fun _ => (none, []) }

/-- The fixture collaborators with the failing context parser. -/
def exBaseNoId : BaseCollab :=
  { exBase with mkContextParser := fun _ _ _ => exParserNoId }

/-- Fixture graph collaborators whose engine reports nothing. -/
def exGraph : GraphCollab :=
  { build_graph_from_definitions := fun _ => ⟨[]⟩,
    convert_graph_vertices_to_definitions := fun _ _ => (exDefs, []),
    run_graph_checks_results := fun _ => [] }

/-- A run input with the environment flag unset. -/
def exInputOff : RunInput :=
  { root_folder := "", external_checks_dir := [], files := none, env_graph := none }

/-- A run input with the environment flag set to `"TRUE"` (uppercase). -/
def exInputOn : RunInput :=
  { root_folder := "", external_checks_dir := [], files := none, env_graph := some "TRUE" }

/-- The fixture runner filter admitting every check. -/
def exRF : RunnerFilter := fun _ => true

/-- The record the fixture's resource-scoped scan produces. -/
def exRecord : Record :=
  { check_id := "CKV_1", bc_check_id := none, check_name := "check1",
    check_result := ⟨.passed, none⟩,
    code_block := [(2, "  MyBucket:"), (3, "    Type: AWS::S3::Bucket")],
    file_path := "f1", file_line_range := [2, 3],
    resource := "AWS::S3::Bucket.MyBucket", evaluations := [],
    check_class := "mod", file_abs_path := "/abs/f1", entity_tags := [] }

/-- Fixture code lines carrying a suppression marker for `CKV_1`. -/
def exSkipLines : List (Nat × String) :=
  [(2, "  MyBucket:"), (3, "    # checkov:skip=CKV_1:reason")]

/-- A context parser whose extracted code lines carry the marker. -/
def exParserSkip : ContextParserModel :=
  { extract_cf_resource_id := fun _ n => some ("AWS::S3::Bucket." ++ n),
    extract_cf_resource_code_lines := fun _ => (some (2, 3), exSkipLines) }

/-- The skipped record the fixture scan produces for the marked resource. -/
def exSkippedRecord : Record :=
  { check_id := "CKV_1", bc_check_id := none, check_name := "check1",
    check_result := ⟨.skipped, some "reason"⟩,
    code_block := exSkipLines, file_path := "f1", file_line_range := [2, 3],
    resource := "AWS::S3::Bucket.MyBucket", evaluations := [],
    check_class := "mod", file_abs_path := "/abs/f1", entity_tags := [] }

/-- A graph verdict entity that resolves in the fixture context. -/
def exEntityOk : GraphEntity :=
  { file_path := "f1", block_name := "resources.MyBucket",
    id := "AWS::S3::Bucket.MyBucket", tags := none }

/-- A graph verdict entity whose resource name is absent from the fixture
context. -/
def exEntityGhost : GraphEntity :=
  { file_path := "f1", block_name := "resources.Ghost",
    id := "AWS::S3::Bucket.Ghost", tags := none }

/-- The fixture graph-scoped check. -/
def exGCheck : GraphCheck := { id := "G_1", name := "gcheck", check_class := "gmod" }

/-- A runner state after the context build, with no breadcrumbs. -/
def exStateCtx : RunnerState :=
  { context := some exBuiltContext, definitions := some exDefs,
    definitions_raw := exRawMap, breadcrumbs := none }

/-- Graph collaborators producing one resolvable verdict. -/
def exGraphOkOnly : GraphCollab :=
  { exGraph with run_graph_checks_results := fun _ =>
      [(exGCheck, [⟨exEntityOk, ⟨.failed, none⟩⟩])] }

/-- Graph collaborators producing one resolvable verdict followed by one
whose resource has no entry in the context. -/
def exGraphWithGhost : GraphCollab :=
  { exGraph with run_graph_checks_results := fun _ =>
      [(exGCheck, [⟨exEntityOk, ⟨.failed, none⟩⟩, ⟨exEntityGhost, ⟨.failed, none⟩⟩])] }

/-- The record the fixture graph path produces for the resolvable verdict. -/
def exGraphRecord : Record :=
  { check_id := "G_1", bc_check_id := none, check_name := "gcheck",
    check_result := ⟨.failed, none⟩,
    code_block := [(2, "  MyBucket:"), (3, "    Type: AWS::S3::Bucket")],
    file_path := "f1", file_line_range := [2, 3],
    resource := "AWS::S3::Bucket.MyBucket", evaluations := [],
    check_class := "gmod", file_abs_path := "/abs/f1", entity_tags := [] }

/-- A fixture resource-path report for the merge rule. -/
def exRRep : Report := ⟨runnerCheckType, [.plain exRecord]⟩

/-- A fixture graph-path report colliding with `exRRep` on the identity of
`exRecord` (the graph version carries a breadcrumb). -/
def exGRep : Report := ⟨runnerCheckType, [.graph exRecord ⟨["MyBucket"]⟩]⟩

/-! General lemmas about the embedded operations. -/

theorem pyGet_isSome_of_mem {α : Type} {m : List (String × α)} {k : String} {v : α}
    (h : (k, v) ∈ m) : (pyGet m k).isSome = true := by
  induction m with
  | nil => cases h
  | cons p rest ih =>
    obtain ⟨pk, pv⟩ := p
    rw [List.mem_cons] at h
    by_cases hk : pk = k
    · simp [pyGet, hk]
    · simp only [pyGet, if_neg hk]
      rcases h with h | h
      · cases h; exact absurd rfl hk
      · exact ih h

theorem splitOnChar_length (c : Char) (l : List Char) :
    (splitOnChar c l).length = l.count c + 1 := by
  induction l with
  | nil => simp [splitOnChar]
  | cons x xs ih =>
    by_cases hx : x = c
    · subst hx
      simp [splitOnChar, List.count_cons, ih]
    · cases hs : splitOnChar c xs with
      | nil => rw [hs] at ih; simp at ih
      | cons h t =>
        rw [hs] at ih
        simp only [List.length_cons] at ih
        simp only [splitOnChar, if_neg hx, hs, List.length_cons, List.count_cons,
          beq_iff_eq]
        have hcx : (if c = x then 1 else 0) = 0 :=
          if_neg (fun hc => hx (Eq.symm hc))
        omega

theorem getElem?_isSome_iff_lt {α : Type} (l : List α) (i : Nat) :
    (l[i]?).isSome = true ↔ i < l.length := by
  constructor
  · intro h
    by_contra hc
    push_neg at hc
    rw [List.getElem?_eq_none_iff.mpr hc] at h
    simp at h
  · intro h
    rw [List.getElem?_eq_getElem h]
    simp

/-- The name-extraction step of graph back-mapping succeeds exactly when
the block name has a dot. -/
theorem pySplit_dot_isSome_iff (s : String) :
    ((pySplit '.' s)[1]?).isSome = true ↔ '.' ∈ s.toList := by
  unfold pySplit
  rw [List.getElem?_map]
  rw [Option.isSome_map']
  rw [getElem?_isSome_iff_lt, splitOnChar_length]
  constructor
  · intro h
    have : 0 < s.toList.count '.' := by omega
    exact List.count_pos_iff.mp this
  · intro h
    have : 0 < s.toList.count '.' := List.count_pos_iff.mpr h
    omega

theorem anyMatch_eq_false_iff (gRecs : List ReportRecord) (x : ReportRecord) :
    (gRecs.any (fun gx => decide (recId gx = recId x))) = false
      ↔ recId x ∉ gRecs.map recId := by
  rw [List.any_eq_false]
  constructor
  · intro h hmem
    obtain ⟨y, hy, hye⟩ := List.mem_map.mp hmem
    exact (h y hy) (decide_eq_true hye)
  · intro h y hy he
    exact h (List.mem_map.mpr ⟨y, hy, of_decide_eq_true he⟩)

theorem filter_filter_of_imp {α : Type} (p q : α → Bool) (l : List α)
    (h : ∀ x ∈ l, p x = true → q x = true) :
    (l.filter q).filter p = l.filter p := by
  induction l with
  | nil => rfl
  | cons a t ih =>
    have ih' := ih (fun x hx hpx => h x (List.mem_cons_of_mem _ hx) hpx)
    by_cases hq : q a = true
    · by_cases hp : p a = true
      · simp [List.filter_cons, hq, hp, ih']
      · simp [List.filter_cons, hq, hp, ih']
    · have hp : p a = false := by
        cases hpa : p a
        · rfl
        · exact absurd (h a (List.mem_cons_self a t) hpa) hq
      simp [List.filter_cons, hq, hp, ih']

/-! The claims. -/

/-- C1: the claim states that a graph verdict whose resource has no entry
in the built ResourceContext is dropped with a logged warning, the run
never crashes, and `get_graph_checks_report` still returns the findings of
the resolvable verdicts. The code has no such handling: line 100 indexes
`self.context` directly, so the fixture run below — one resolvable verdict
followed by one unresolvable one — raises `KeyError` and aborts the whole
graph report, losing the resolvable finding too; with only resolvable
verdicts the same call succeeds. -/
theorem c1_unresolvable_graph_verdict_raises_keyerror :
    getGraphChecksReport exBase exGraphOkOnly exStateCtx "" exRF =
      .ok ⟨"cloudformation", [.plain exGraphRecord]⟩
    ∧ getGraphChecksReport exBase exGraphWithGhost exStateCtx "" exRF =
      .error "KeyError" := by
  constructor <;> decide

/-- C10: graph-verdict back-mapping resolves the entity name as
`BLOCK_NAME.split(".")[1]`, which exists exactly when the block name
contains a dot; for a dot-free block name the indexing is out of bounds
and `processGraphResult` reaches the error branch before anything else. -/
theorem c10_block_name_needs_dot (base : BaseCollab) (s : RunnerState)
    (root : String) (check : GraphCheck) (cr : GraphCheckRes) :
    (((pySplit '.' cr.entity.block_name)[1]?).isSome = true
      ↔ '.' ∈ cr.entity.block_name.toList)
    ∧ ('.' ∉ cr.entity.block_name.toList →
        processGraphResult base s root check cr =
          .error "IndexError: list index out of range") := by
  refine ⟨pySplit_dot_isSome_iff _, fun hdot => ?_⟩
  have hnone : (pySplit '.' cr.entity.block_name)[1]? = none := by
    cases hx : (pySplit '.' cr.entity.block_name)[1]? with
    | none => rfl
    | some v =>
      exact absurd ((pySplit_dot_isSome_iff _).mp (by rw [hx]; rfl)) hdot
  simp only [processGraphResult, hnone]

theorem processResource_eq_nil_of_extractionFails (reg : CfnRegistry)
    (parser : ContextParserModel) (rf : RunnerFilter)
    (gt : String × Resource → List (String × String)) (cf af n : String) (r : Resource)
    (hfail : extractionFails parser n r) :
    processResource reg parser rf gt cf af n r = [] := by
  rcases hfail with h | h | h | h
  · simp [processResource, h]
  · simp [processResource, h]
  · rcases hcl : parser.extract_cf_resource_code_lines r with ⟨o, L⟩
    rw [hcl] at h
    simp only at h
    subst h
    cases hid : parser.extract_cf_resource_id r n with
    | none => simp [processResource, hid]
    | some rid =>
      by_cases hrid : rid = ""
      · simp [processResource, hid, hrid]
      · cases L with
        | nil => simp [processResource, hid, hrid, hcl]
        | cons a as => simp [processResource, hid, hrid, hcl]
  · rcases hcl : parser.extract_cf_resource_code_lines r with ⟨o, L⟩
    rw [hcl] at h
    simp only at h
    subst h
    cases hid : parser.extract_cf_resource_id r n with
    | none => simp [processResource, hid]
    | some rid =>
      by_cases hrid : rid = ""
      · simp [processResource, hid, hrid]
      · cases o with
        | none => simp [processResource, hid, hrid, hcl]
        | some rng => simp [processResource, hid, hrid, hcl]

/-- C4: a resource whose id, line range or code lines cannot be extracted
yields no findings at all, and the rest of the file's resources are
scanned exactly as if the failed resource were the only one missing. -/
theorem c4_unextractable_resource_is_excluded
    (base : BaseCollab) (reg : CfnRegistry) (rf : RunnerFilter)
    (root cf_file : String) (raw : DefinitionsRaw)
    (sections : List (String × List (String × Resource)))
    (pre post : List (String × Resource)) (n : String) (r : Resource) (rawFile : RawFile)
    (hsec : pyGet sections RESOURCES = some (pre ++ (n, r) :: post))
    (hraw : pyGet raw cf_file = some rawFile)
    (hfail : extractionFails (base.mkContextParser cf_file (.dict sections) rawFile) n r) :
    processResource reg (base.mkContextParser cf_file (.dict sections) rawFile) rf
        base.get_resource_tags cf_file (base.create_file_abs_path root cf_file) n r = []
    ∧ processFile base reg rf root cf_file (.dict sections) raw =
        .ok (pre.flatMap (fun nr => processResource reg
              (base.mkContextParser cf_file (.dict sections) rawFile) rf
              base.get_resource_tags cf_file (base.create_file_abs_path root cf_file) nr.1 nr.2)
          ++ post.flatMap (fun nr => processResource reg
              (base.mkContextParser cf_file (.dict sections) rawFile) rf
              base.get_resource_tags cf_file (base.create_file_abs_path root cf_file) nr.1 nr.2)) := by
  have h1 := processResource_eq_nil_of_extractionFails reg
    (base.mkContextParser cf_file (.dict sections) rawFile) rf
    base.get_resource_tags cf_file (base.create_file_abs_path root cf_file) n r hfail
  refine ⟨h1, ?_⟩
  simp only [processFile, hsec, hraw]
  rw [List.flatMap_append, List.flatMap_cons, h1]
  simp

/-- C4 witness: a parser that extracts no id excludes the fixture resource
while the file still processes. -/
theorem c4_unextractable_resource_is_excluded_witness :
    (pyGet [("Resources", [("MyBucket", exResource)])] RESOURCES =
      some ([] ++ ("MyBucket", exResource) :: []))
    ∧ (pyGet exRawMap "f1" = some exRaw)
    ∧ extractionFails (exBaseNoId.mkContextParser "f1"
        (.dict [("Resources", [("MyBucket", exResource)])]) exRaw) "MyBucket" exResource
    ∧ processFile exBaseNoId exRegistry exRF "" "f1"
        (.dict [("Resources", [("MyBucket", exResource)])]) exRawMap = .ok [] := by
  refine ⟨by decide, by decide, Or.inl (by decide), ?_⟩
  have h := c4_unextractable_resource_is_excluded exBaseNoId exRegistry exRF "" "f1"
    exRawMap [("Resources", [("MyBucket", exResource)])] [] [] "MyBucket" exResource exRaw
    (by decide) (by decide) (Or.inl (by decide))
  simpa using h.2

/-- C5: a breadcrumb is attached only to graph-derived findings — every
record the resource-scoped scan produces is a plain `Record`, and a record
produced on the graph path is upgraded to a breadcrumb-carrying
`GraphRecord` exactly when the breadcrumbs mapping resolves its
`(file_path, resource)` pair. -/
theorem c5_breadcrumb_only_on_graph_findings :
    (∀ (reg : CfnRegistry) (parser : ContextParserModel) (rf : RunnerFilter)
       (gt : String × Resource → List (String × String)) (cf af n : String)
       (r : Resource) (rcd : ReportRecord),
       rcd ∈ processResource reg parser rf gt cf af n r → ∃ rr, rcd = .plain rr)
    ∧ (∀ (base : BaseCollab) (s : RunnerState) (root : String) (check : GraphCheck)
        (cr : GraphCheckRes) (rcd : ReportRecord),
        processGraphResult base s root check cr = .ok rcd →
          ∃ rr, rcd = (match bcLookup s.breadcrumbs cr.entity.file_path cr.entity.id with
                       | some b => ReportRecord.graph rr b
                       | none => ReportRecord.plain rr)) := by
  constructor
  · intro reg parser rf gt cf af n r rcd hm
    cases hid : parser.extract_cf_resource_id r n with
    | none => simp [processResource, hid] at hm
    | some rid =>
      by_cases hrid : rid = ""
      · simp [processResource, hid, hrid] at hm
      · rcases hcl : parser.extract_cf_resource_code_lines r with ⟨o, L⟩
        cases o with
        | none => simp [processResource, hid, hrid, hcl] at hm
        | some rng =>
          cases L with
          | nil => simp [processResource, hid, hrid, hcl] at hm
          | cons l0 ls =>
            simp only [processResource, hid, hcl, if_neg hrid] at hm
            obtain ⟨p, _, hpe⟩ := List.mem_map.mp hm
            exact ⟨_, hpe.symm⟩
  · intro base s root check cr rcd h
    cases hsp : (pySplit '.' cr.entity.block_name)[1]? with
    | none => simp [processGraphResult, hsp] at h
    | some entity_name =>
      cases hctx : s.context with
      | none => simp [processGraphResult, hsp, hctx] at h
      | some ctx =>
        cases hlk : ((pyGet ctx (base.create_file_abs_path root cr.entity.file_path)).bind
            (fun m => pyGet m RESOURCES)).bind (fun m => pyGet m entity_name) with
        | none => simp [processGraphResult, hsp, hctx, hlk] at h
        | some ec =>
          simp only [processGraphResult, hsp, hctx, hlk] at h
          cases hbc : bcLookup s.breadcrumbs cr.entity.file_path cr.entity.id with
          | some b =>
            rw [hbc] at h
            exact ⟨_, (Except.ok.inj h).symm⟩
          | none =>
            rw [hbc] at h
            exact ⟨_, (Except.ok.inj h).symm⟩

/-- C5 witness: the fixture resource-path record is plain. -/
theorem c5_breadcrumb_only_on_graph_findings_witness :
    (ReportRecord.plain exRecord ∈
      processResource exRegistry exParser exRF (fun _ => []) "f1" "/abs/f1" "MyBucket" exResource)
    ∧ (∃ rr, ReportRecord.plain exRecord = ReportRecord.plain rr) :=
  ⟨by decide,
   c5_breadcrumb_only_on_graph_findings.1 exRegistry exParser exRF (fun _ => [])
     "f1" "/abs/f1" "MyBucket" exResource (ReportRecord.plain exRecord) (by decide)⟩

/-- C6: for a scannable resource, a suppression marker for rule `X` in its
code lines forces every finding with check id `X` to carry a SKIPPED
result, and a resource with no markers yields an empty skip mapping and
gets every applicable check evaluated to its PASS/FAIL verdict. -/
theorem c6_suppression_markers_yield_skipped
    (reg : CfnRegistry) (parser : ContextParserModel) (rf : RunnerFilter)
    (gt : String × Resource → List (String × String)) (cf af n : String) (r : Resource)
    (rid : String) (rng : Nat × Nat) (l0 : Nat × String) (ls : List (Nat × String))
    (X : String)
    (hid : parser.extract_cf_resource_id r n = some rid) (hrid : rid ≠ "")
    (hcl : parser.extract_cf_resource_code_lines r = (some rng, l0 :: ls)) :
    ((∃ l ∈ l0 :: ls, ∃ j, findSkipMarker l.2 = some (X, j)) →
      ∀ rr, ReportRecord.plain rr ∈ processResource reg parser rf gt cf af n r →
        rr.check_id = X → rr.check_result.result = .skipped)
    ∧ ((∀ l ∈ l0 :: ls, findSkipMarker l.2 = none) →
        collect_skip_comments (l0 :: ls) = []
        ∧ ∀ c ∈ reg.checks, rf c.id = true → c.applies r = true →
            ReportRecord.plain {
              check_id := c.id, bc_check_id := c.bc_id, check_name := c.name,
              check_result := ⟨if c.evaluate r then .passed else .failed, none⟩,
              code_block := l0 :: ls, file_path := cf,
              file_line_range := [rng.1, rng.2], resource := rid,
              evaluations := [], check_class := c.check_class,
              file_abs_path := af, entity_tags := gt (n, r) }
            ∈ processResource reg parser rf gt cf af n r) := by
  constructor
  · intro hmark rr hmem hX
    simp only [processResource, hid, hcl, if_neg hrid] at hmem
    obtain ⟨p, hp, hpe⟩ := List.mem_map.mp hmem
    simp only [CfnRegistry.scan] at hp
    obtain ⟨c, hc, hfc⟩ := List.mem_filterMap.mp hp
    by_cases hcond : (rf c.id && c.applies r) = true
    · rw [if_pos hcond] at hfc
      cases hskip : pyGet (collect_skip_comments (l0 :: ls)) c.id with
      | some just =>
        rw [hskip] at hfc
        obtain rfl := Option.some.inj hfc
        have hrr := ReportRecord.plain.inj hpe
        rw [← hrr]
      | none =>
        rw [hskip] at hfc
        obtain rfl := Option.some.inj hfc
        have hrr := ReportRecord.plain.inj hpe
        have hcid : c.id = X := by rw [← hrr] at hX; exact hX
        obtain ⟨l, hl, j, hj⟩ := hmark
        have hmem2 : (X, j) ∈ collect_skip_comments (l0 :: ls) :=
          List.mem_filterMap.mpr ⟨l, hl, hj⟩
        have hsome := pyGet_isSome_of_mem hmem2
        rw [hcid] at hskip
        rw [hskip] at hsome
        cases hsome
    · rw [if_neg hcond] at hfc
      cases hfc
  · intro hnone
    have hcol : collect_skip_comments (l0 :: ls) = [] :=
      List.filterMap_eq_nil_iff.mpr (fun a ha => hnone a ha)
    refine ⟨hcol, ?_⟩
    intro c hc hrf happ
    simp only [processResource, hid, hcl, if_neg hrid]
    refine List.mem_map.mpr
      ⟨(c, ⟨if c.evaluate r then .passed else .failed, none⟩), ?_, rfl⟩
    simp only [CfnRegistry.scan]
    refine List.mem_filterMap.mpr ⟨c, hc, ?_⟩
    rw [hcol]
    simp [hrf, happ, pyGet]

/-- C6 witness: the fixture resource carrying a `checkov:skip=CKV_1`
marker yields a SKIPPED finding for `CKV_1`. -/
theorem c6_suppression_markers_yield_skipped_witness :
    exParserSkip.extract_cf_resource_id exResource "MyBucket" =
      some "AWS::S3::Bucket.MyBucket"
    ∧ exParserSkip.extract_cf_resource_code_lines exResource = (some (2, 3), exSkipLines)
    ∧ findSkipMarker "    # checkov:skip=CKV_1:reason" = some ("CKV_1", "reason")
    ∧ exSkippedRecord.check_result.result = .skipped :=
  ⟨by decide, by decide, by decide,
   (c6_suppression_markers_yield_skipped exRegistry exParserSkip exRF (fun _ => [])
      "f1" "/abs/f1" "MyBucket" exResource "AWS::S3::Bucket.MyBucket" (2, 3)
      (2, "  MyBucket:") [(3, "    # checkov:skip=CKV_1:reason")] "CKV_1"
      (by decide) (by decide) (by decide)).1
     ⟨(3, "    # checkov:skip=CKV_1:reason"), by decide, "reason", by decide⟩
     exSkippedRecord (by decide) (by decide)⟩

/-- C10 witness: with a dot-free block name the fixture verdict aborts with
the index error, and with a dotted block name the extraction succeeds. -/
theorem c10_block_name_needs_dot_witness :
    ('.' ∉ ("resources" : String).toList)
    ∧ processGraphResult exBase exStateCtx ""
        exGCheck ⟨{ file_path := "f1", block_name := "resources",
                    id := "x", tags := none }, ⟨.failed, none⟩⟩ =
        .error "IndexError: list index out of range" :=
  ⟨by decide,
   (c10_block_name_needs_dot exBase exStateCtx "" exGCheck
      ⟨{ file_path := "f1", block_name := "resources", id := "x", tags := none },
       ⟨.failed, none⟩⟩).2 (by decide)⟩

/-- C2: in the merged report, a finding is identified by
`(check_id, file_path, resource_id)`; when per-path identities are unique,
the merged report has unique identities, and the findings carrying a given
identity are exactly the graph path's when the graph path produced it (so
the resource-path finding for a shared identity is replaced), and exactly
the resource path's otherwise. -/
theorem c2_merge_graph_wins_and_complete (r g : Report)
    (hr : (r.records.map recId).Nodup) (hg : (g.records.map recId).Nodup) :
    ((merge_reports r g).records.map recId).Nodup
    ∧ ∀ i : String × String × String,
        (merge_reports r g).records.filter (fun x => decide (recId x = i)) =
          if i ∈ g.records.map recId then
            g.records.filter (fun x => decide (recId x = i))
          else r.records.filter (fun x => decide (recId x = i)) := by
  have hkeep : ∀ x ∈ r.records.filter
      (fun x => !(g.records.any (fun gx => decide (recId gx = recId x)))),
      recId x ∉ g.records.map recId := by
    intro x hx
    have h2 := List.of_mem_filter hx
    rw [Bool.not_eq_true'] at h2
    exact (anyMatch_eq_false_iff g.records x).mp h2
  constructor
  · simp only [merge_reports]
    rw [List.map_append, List.nodup_append]
    refine ⟨hr.sublist ((List.filter_sublist _).map _), hg, ?_⟩
    intro i hiA hig
    obtain ⟨x, hx, rfl⟩ := List.mem_map.mp hiA
    exact hkeep x hx hig
  · intro i
    simp only [merge_reports, List.filter_append]
    by_cases hig : i ∈ g.records.map recId
    · rw [if_pos hig]
      have hA : (r.records.filter
          (fun x => !(g.records.any (fun gx => decide (recId gx = recId x))))).filter
          (fun x => decide (recId x = i)) = [] := by
        rw [List.filter_eq_nil_iff]
        intro x hx hp
        have hni := hkeep x hx
        rw [of_decide_eq_true hp] at hni
        exact hni hig
      rw [hA, List.nil_append]
    · rw [if_neg hig]
      have hg0 : g.records.filter (fun x => decide (recId x = i)) = [] := by
        rw [List.filter_eq_nil_iff]
        intro x hx hp
        exact hig (List.mem_map.mpr ⟨x, hx, of_decide_eq_true hp⟩)
      rw [hg0, List.append_nil]
      apply filter_filter_of_imp
      intro x hx hpx
      have hx2 : recId x = i := of_decide_eq_true hpx
      rw [Bool.not_eq_true', anyMatch_eq_false_iff, hx2]
      exact hig

/-- C2 witness: merging the colliding fixture reports keeps identities
unique (the graph record replaces the resource record). -/
theorem c2_merge_graph_wins_and_complete_witness :
    (exRRep.records.map recId).Nodup ∧ (exGRep.records.map recId).Nodup
    ∧ ((merge_reports exRRep exGRep).records.map recId).Nodup :=
  ⟨by decide, by decide,
   (c2_merge_graph_wins_and_complete exRRep exGRep (by decide) (by decide)).1⟩

/-- C3: the run-mode switch defaults to off and is the case-insensitive
comparison of the environment value with `"true"`; with the switch off a
run is exactly the resource-scoped scan — unmerged, and independent of
every graph collaborator — and with it on the run is the graph pipeline:
graph substitution, scan, graph report and merge. -/
theorem c3_graph_mode_switch :
    graphEnabled none = false
    ∧ (∀ v, graphEnabled (some v) = (pyLower v == "true"))
    ∧ (∀ (base : BaseCollab) (g1 g2 : GraphCollab) (s : RunnerState) (inp : RunInput)
        (rf : RunnerFilter), graphEnabled inp.env_graph = false →
        Runner.run base g1 s inp rf = Runner.run base g2 s inp rf)
    ∧ (∀ (base : BaseCollab) (g : GraphCollab) (s : RunnerState) (inp : RunInput)
        (rf : RunnerFilter), graphEnabled inp.env_graph = false →
        Runner.run base g s inp rf =
          (scanLoop base (effectiveRegistry base s inp) rf inp.root_folder
              ((afterContext base s inp rf).definitions.getD [])
              (afterContext base s inp rf).definitions_raw).map
            (fun recs => (afterContext base s inp rf,
              { check_type := runnerCheckType, records := recs })))
    ∧ (∀ (base : BaseCollab) (g : GraphCollab) (s : RunnerState) (inp : RunInput)
        (rf : RunnerFilter), graphEnabled inp.env_graph = true →
        Runner.run base g s inp rf =
          match scanLoop base (effectiveRegistry base s inp) rf inp.root_folder
              ((applyGraphBranch g (afterContext base s inp rf) inp).definitions.getD [])
              (applyGraphBranch g (afterContext base s inp rf) inp).definitions_raw with
          | .error e => .error e
          | .ok recs =>
            match getGraphChecksReport base g
                (applyGraphBranch g (afterContext base s inp rf) inp) inp.root_folder rf with
            | .error e => .error e
            | .ok graph_report =>
              .ok (applyGraphBranch g (afterContext base s inp rf) inp,
                merge_reports { check_type := runnerCheckType, records := recs } graph_report)) := by
  refine ⟨by decide, fun v => rfl, ?_, ?_, ?_⟩
  · intro base g1 g2 s inp rf hoff
    simp [Runner.run, runCore, applyGraphBranch, hoff]
  · intro base g s inp rf hoff
    have hab : applyGraphBranch g (afterContext base s inp rf) inp =
        afterContext base s inp rf := by
      simp [applyGraphBranch, hoff]
    simp only [Runner.run, runCore, hab]
    cases hsl : scanLoop base (effectiveRegistry base s inp) rf inp.root_folder
        ((afterContext base s inp rf).definitions.getD [])
        (afterContext base s inp rf).definitions_raw with
    | error e => simp [Except.map]
    | ok recs => simp [Except.map, hoff]
  · intro base g s inp rf hon
    simp only [Runner.run, runCore, hon, if_true]

/-- C3 witness: with the flag unset the fixture run is unchanged under a
different graph engine. -/
theorem c3_graph_mode_switch_witness :
    graphEnabled exInputOff.env_graph = false
    ∧ Runner.run exBase exGraph initState exInputOff exRF =
        Runner.run exBase exGraphWithGhost initState exInputOff exRF :=
  ⟨by decide,
   c3_graph_mode_switch.2.2.1 exBase exGraph exGraphWithGhost initState exInputOff exRF
     (by decide)⟩

/-- C9: starting from a fresh runner, the graph branch — executed after the
context build and before the scan loop — substitutes `self.definitions`
with the reconverted graph vertices and sets `self.breadcrumbs` exactly
when the flag is on, leaving `self.definitions_raw` and the already-built
context untouched; with the flag off the definitions remain the loader's
output. -/
theorem c9_graph_substitution_frame (base : BaseCollab) (g : GraphCollab)
    (s : RunnerState) (inp : RunInput) (rf : RunnerFilter)
    (hfresh : s.context = none) :
    (applyGraphBranch g (afterContext base s inp rf) inp).definitions_raw =
        (base.create_definitions inp.root_folder inp.files rf).2
    ∧ (applyGraphBranch g (afterContext base s inp rf) inp).context =
        (afterContext base s inp rf).context
    ∧ (graphEnabled inp.env_graph = true →
        (applyGraphBranch g (afterContext base s inp rf) inp).definitions =
          some (g.convert_graph_vertices_to_definitions
            (g.build_graph_from_definitions
              (base.create_definitions inp.root_folder inp.files rf).1).vertices
            inp.root_folder).1
        ∧ (applyGraphBranch g (afterContext base s inp rf) inp).breadcrumbs =
          some (g.convert_graph_vertices_to_definitions
            (g.build_graph_from_definitions
              (base.create_definitions inp.root_folder inp.files rf).1).vertices
            inp.root_folder).2)
    ∧ (graphEnabled inp.env_graph = false →
        (applyGraphBranch g (afterContext base s inp rf) inp).definitions =
          some (base.create_definitions inp.root_folder inp.files rf).1) := by
  have hguard : guardTriggered s = true := by
    simp [guardTriggered, hfresh]
  have hdefs : (afterContext base s inp rf).definitions =
      some (base.create_definitions inp.root_folder inp.files rf).1 := by
    simp [afterContext, afterGuard, hguard]
  have hraw : (afterContext base s inp rf).definitions_raw =
      (base.create_definitions inp.root_folder inp.files rf).2 := by
    simp [afterContext, afterGuard, hguard]
  cases hflag : graphEnabled inp.env_graph with
  | false =>
    refine ⟨?_, ?_, fun h => absurd h (by simp [hflag]), fun _ => ?_⟩
    · simp [applyGraphBranch, hflag, hraw]
    · simp [applyGraphBranch, hflag]
    · simp [applyGraphBranch, hflag, hdefs]
  | true =>
    refine ⟨?_, ?_, fun _ => ⟨?_, ?_⟩, fun h => absurd h (by simp [hflag])⟩
    · simp [applyGraphBranch, hflag, hraw]
    · simp [applyGraphBranch, hflag]
    · simp [applyGraphBranch, hflag, hdefs]
    · simp [applyGraphBranch, hflag, hdefs]

/-- C9 witness: on the fixture input with the flag set to `"TRUE"`, the
definitions after the graph branch are the reconverted vertices. -/
theorem c9_graph_substitution_frame_witness :
    initState.context = none
    ∧ graphEnabled exInputOn.env_graph = true
    ∧ (applyGraphBranch exGraph (afterContext exBase initState exInputOn exRF)
        exInputOn).definitions = some exDefs :=
  ⟨rfl, by decide,
   ((c9_graph_substitution_frame exBase exGraph initState exInputOn exRF rfl).2.2.1
     (by decide)).1⟩

theorem afterContext_idem (base : BaseCollab) (s : RunnerState) (inp : RunInput)
    (rf : RunnerFilter) :
    afterContext base (afterContext base s inp rf) inp rf =
      afterContext base s inp rf := by
  obtain ⟨sc, sd, sr, sb⟩ := s
  cases sc <;> cases sd <;> cases sb <;>
    simp [afterContext, afterGuard, guardTriggered]

/-- C7: with graph mode off (and no external check directories, so the set
of registered checks is the same for both invocations), running again from
the state a successful run left behind returns the very same state and the
very same report — the resource-scoped scan is a deterministic pure
evaluation. -/
theorem c7_resource_scan_idempotent (base : BaseCollab) (g : GraphCollab)
    (s : RunnerState) (inp : RunInput) (rf : RunnerFilter)
    (s' : RunnerState) (rep : Report)
    (hext : inp.external_checks_dir = [])
    (hoff : graphEnabled inp.env_graph = false)
    (h1 : Runner.run base g s inp rf = .ok (s', rep)) :
    Runner.run base g s' inp rf = .ok (s', rep) := by
  have hreg : ∀ t : RunnerState, effectiveRegistry base t inp = base.registry := by
    intro t
    simp [effectiveRegistry, hext]
  have hab : applyGraphBranch g (afterContext base s inp rf) inp =
      afterContext base s inp rf := by
    simp [applyGraphBranch, hoff]
  have h1' := h1
  simp only [Runner.run, runCore, hab, hoff, Bool.false_eq_true, if_false] at h1'
  cases hsl : scanLoop base (effectiveRegistry base s inp) rf inp.root_folder
      ((afterContext base s inp rf).definitions.getD [])
      (afterContext base s inp rf).definitions_raw with
  | error e =>
    rw [hsl] at h1'
    cases h1'
  | ok recs =>
    rw [hsl] at h1'
    have hinj := Except.ok.inj h1'
    have hsx : afterContext base s inp rf = s' := congrArg Prod.fst hinj
    have hrx : Report.mk runnerCheckType recs = rep := congrArg Prod.snd hinj
    have hab' : applyGraphBranch g (afterContext base s' inp rf) inp =
        afterContext base s' inp rf := by
      simp [applyGraphBranch, hoff]
    simp only [Runner.run, runCore, hab', hoff, Bool.false_eq_true, if_false]
    rw [← hsx, afterContext_idem, hreg]
    rw [hreg] at hsl
    rw [hsl]
    show Except.ok (afterContext base s inp rf, Report.mk runnerCheckType recs) =
      Except.ok (afterContext base s inp rf, rep)
    rw [hrx]

/-- C7 witness: the fixture run with the flag unset, repeated from the
state it produced, returns the identical report. -/
theorem c7_resource_scan_idempotent_witness :
    exInputOff.external_checks_dir = []
    ∧ graphEnabled exInputOff.env_graph = false
    ∧ Runner.run exBase exGraph initState exInputOff exRF =
        .ok (⟨some exBuiltContext, some exDefs, exRawMap, none⟩,
             ⟨"cloudformation", [.plain exRecord]⟩)
    ∧ Runner.run exBase exGraph
        ⟨some exBuiltContext, some exDefs, exRawMap, none⟩ exInputOff exRF =
        .ok (⟨some exBuiltContext, some exDefs, exRawMap, none⟩,
             ⟨"cloudformation", [.plain exRecord]⟩) :=
  ⟨rfl, by decide, by decide,
   c7_resource_scan_idempotent exBase exGraph initState exInputOff exRF
     ⟨some exBuiltContext, some exDefs, exRawMap, none⟩
     ⟨"cloudformation", [.plain exRecord]⟩ rfl (by decide) (by decide)⟩

/-- C8 (amended): the ResourceContext is assigned exactly once per run, by
the single `build_definitions_context` call that happens before any check
executes and regardless of graph mode; the graph-result back-mapping reads
exactly that stored context (it depends on the state only through
`context` and `breadcrumbs`); but the resource-scoped scan does not
consult the built context — its findings are unchanged under any
replacement of the context builder. -/
theorem c8_context_built_once_amended :
    (∀ (base : BaseCollab) (s : RunnerState) (inp : RunInput) (rf : RunnerFilter),
      (afterContext base s inp rf).context =
        some (base.build_definitions_context
          ((afterGuard base s inp rf).definitions.getD [])
          (afterGuard base s inp rf).definitions_raw inp.root_folder))
    ∧ (∀ (base : BaseCollab) (g : GraphCollab) (s : RunnerState) (inp : RunInput)
        (rf : RunnerFilter),
        Runner.run base g s inp rf =
          runCore base g (afterContext base s inp rf) (effectiveRegistry base s inp) inp rf)
    ∧ (∀ (base : BaseCollab) (g : GraphCollab) (s t : RunnerState) (root : String)
        (rf : RunnerFilter), s.context = t.context → s.breadcrumbs = t.breadcrumbs →
        getGraphChecksReport base g s root rf = getGraphChecksReport base g t root rf)
    ∧ (∀ (base1 base2 : BaseCollab) (g : GraphCollab) (s : RunnerState) (inp : RunInput)
        (rf : RunnerFilter),
        base1.create_definitions = base2.create_definitions →
        base1.registry = base2.registry →
        base1.load_external_checks = base2.load_external_checks →
        base1.create_file_abs_path = base2.create_file_abs_path →
        base1.mkContextParser = base2.mkContextParser →
        base1.get_resource_tags = base2.get_resource_tags →
        base1.parse_entity_tags = base2.parse_entity_tags →
        graphEnabled inp.env_graph = false →
        runFindings base1 g s inp rf = runFindings base2 g s inp rf) := by
  refine ⟨fun base s inp rf => by simp [afterContext],
    fun base g s inp rf => rfl, ?_, ?_⟩
  · intro base g s t root rf hc hb
    have hpg : processGraphResult base s root = processGraphResult base t root := by
      funext check cr
      simp only [processGraphResult, hc, hb]
    simp only [getGraphChecksReport, hpg]
  · intro base1 base2 g s inp rf h1 h2 h3 h4 h5 h6 h7 hoff
    have hag : afterGuard base1 s inp rf = afterGuard base2 s inp rf := by
      simp only [afterGuard, h1]
    have her : effectiveRegistry base1 s inp = effectiveRegistry base2 s inp := by
      simp only [effectiveRegistry, h2, h3]
    have hpf : processFile base1 = processFile base2 := by
      funext reg rf' root cf d raw
      simp only [processFile, h4, h5, h6]
    have hsc : scanLoop base1 = scanLoop base2 := by
      funext reg rf' root defs raw
      simp only [scanLoop, hpf]
    have hd : (afterContext base1 s inp rf).definitions =
        (afterContext base2 s inp rf).definitions := by
      simp [afterContext, hag]
    have hraw : (afterContext base1 s inp rf).definitions_raw =
        (afterContext base2 s inp rf).definitions_raw := by
      simp [afterContext, hag]
    have hab1 : applyGraphBranch g (afterContext base1 s inp rf) inp =
        afterContext base1 s inp rf := by
      simp [applyGraphBranch, hoff]
    have hab2 : applyGraphBranch g (afterContext base2 s inp rf) inp =
        afterContext base2 s inp rf := by
      simp [applyGraphBranch, hoff]
    simp only [runFindings, Runner.run, runCore, hab1, hab2, her, hsc, hd, hraw]
    cases hsl : scanLoop base2 (effectiveRegistry base2 s inp) rf inp.root_folder
        ((afterContext base2 s inp rf).definitions.getD [])
        (afterContext base2 s inp rf).definitions_raw with
    | error e => simp [Except.map]
    | ok recs => simp [Except.map, hoff]

/-- C8 counterexample: with a context builder that builds an empty
ResourceContext, the fixture run (graph mode off) still produces the full
source-anchored finding — the resource-scoped scan therefore does not read
the context produced by `build_definitions_context`, contradicting the
claim that both scan paths consult it. -/
theorem c8_resource_scan_ignores_built_context :
    Runner.run exBaseEmptyCtx exGraph initState exInputOff exRF =
      .ok (⟨some [], some exDefs, exRawMap, none⟩,
           ⟨"cloudformation", [.plain exRecord]⟩) := by decide

/-- C8 witness: the fixture findings are unchanged when the context builder
is replaced by the empty one. -/
theorem c8_context_built_once_amended_witness :
    graphEnabled exInputOff.env_graph = false
    ∧ runFindings exBase exGraph initState exInputOff exRF =
        runFindings exBaseEmptyCtx exGraph initState exInputOff exRF :=
  ⟨by decide,
   c8_context_built_once_amended.2.2.2 exBase exBaseEmptyCtx exGraph initState exInputOff
     exRF rfl rfl rfl rfl rfl rfl rfl (by decide)⟩

end Checkov
